import Mathlib

/-!
Verification of the change-aggregation and trigger-intent core of the
skaffold dev-loop: ChangeSet (pending-work accumulator), Intents
(build/sync/deploy trigger flags), the noCache build-cache variant, and
the deploy/status-check orchestration.

Each Go structure is shallowly embedded: structs become Lean structures,
methods become pure functions from the old state to the new state, Go
maps become optional association lists (the `Option` distinguishes a nil
map from an allocated empty map, as Go does), and Go slices become Lean
lists.  The mutex discipline of the concurrency claims is embedded
separately as per-method event traces over an abstract lock.
-/

namespace Skaffold

/-- latest_v1.Artifact: a buildable unit, keyed by its image name.
Only the fields the core reads are carried. -/
structure Artifact where
  ImageName : String
  Workspace : String
  deriving DecidableEq, Repr

/-- sync.Item: a pending file-sync work item, keyed by its image. -/
structure SyncItem where
  Image : String
  deriving DecidableEq, Repr

/-- Association-list lookup, the embedding of a Go map read `m[k]`. -/
def assocFind {α : Type} : List (String × α) → String → Option α
  | [], _ => none
  | (k', v) :: rest, k => if k' = k then some v else assocFind rest k

/-- Association-list insert, the embedding of a Go map write `m[k] = v`:
an existing binding for the key is replaced, otherwise the binding is added. -/
def assocInsert {α : Type} : List (String × α) → String → α → List (String × α)
  | [], k, v => [(k, v)]
  | (k', v') :: rest, k, v =>
      if k' = k then (k, v) :: rest else (k', v') :: assocInsert rest k v

/-- Reading a possibly-nil Go map: a nil map looks up to nothing. -/
def mapLookup {α : Type} (m : Option (List (String × α))) (k : String) : Option α :=
  match m with
  | none => none
  | some l => assocFind l k

/-- The Go pattern `if m == nil { m = map[...]{} }`: coalesce a nil map
to an allocated empty one before writing into it. -/
def orEmptyMap {α : Type} : Option (List (String × α)) → List (String × α)
  | none => []
  | some l => l

/-- ChangeSet: the per-cycle accumulator of pending work.  Go maps are
`Option` association lists so that a nil map and an allocated empty map
stay distinguishable, exactly as in the source. -/
structure ChangeSet where
  needsRebuild : List Artifact
  rebuildTracker : Option (List (String × Artifact))
  needsResync : List SyncItem
  resyncTracker : Option (List (String × SyncItem))
  needsRetest : Option (List (String × Bool))
  needsRedeploy : Bool
  needsReload : Bool
  deriving Repr

/-- The zero value of ChangeSet: empty slices, nil maps, false flags. -/
def ChangeSet.empty : ChangeSet :=
  { needsRebuild := []
    rebuildTracker := none
    needsResync := []
    resyncTracker := none
    needsRetest := none
    needsRedeploy := false
    needsReload := false }

/-- ChangeSet.AddRebuild: return unchanged if the image name is already
tracked; otherwise allocate the tracker map if nil, record the artifact
under its image name, and append it to needsRebuild. -/
def ChangeSet.AddRebuild (c : ChangeSet) (a : Artifact) : ChangeSet :=
  if (mapLookup c.rebuildTracker a.ImageName).isSome then c
  else
    { c with rebuildTracker :=
               some (assocInsert (orEmptyMap c.rebuildTracker) a.ImageName a)
             needsRebuild := c.needsRebuild ++ [a] }

/-- ChangeSet.AddRetest: allocate the set if nil, then mark the image name. -/
def ChangeSet.AddRetest (c : ChangeSet) (a : Artifact) : ChangeSet :=
  { c with needsRetest :=
             some (assocInsert (orEmptyMap c.needsRetest) a.ImageName true) }

/-- ChangeSet.AddResync: return unchanged if the image is already tracked;
otherwise allocate the tracker map if nil, record the item under its
image, and append it to needsResync. -/
def ChangeSet.AddResync (c : ChangeSet) (s : SyncItem) : ChangeSet :=
  if (mapLookup c.resyncTracker s.Image).isSome then c
  else
    { c with resyncTracker :=
               some (assocInsert (orEmptyMap c.resyncTracker) s.Image s)
             needsResync := c.needsResync ++ [s] }

/-- ChangeSet.resetBuild: fresh empty (allocated) tracker, nil slice. -/
def ChangeSet.resetBuild (c : ChangeSet) : ChangeSet :=
  { c with rebuildTracker := some [], needsRebuild := [] }

/-- ChangeSet.resetSync: fresh empty (allocated) tracker, nil slice. -/
def ChangeSet.resetSync (c : ChangeSet) : ChangeSet :=
  { c with resyncTracker := some [], needsResync := [] }

/-- ChangeSet.resetDeploy: clear the redeploy flag. -/
def ChangeSet.resetDeploy (c : ChangeSet) : ChangeSet :=
  { c with needsRedeploy := false }

/-- ChangeSet.resetTest: fresh empty (allocated) retest set. -/
def ChangeSet.resetTest (c : ChangeSet) : ChangeSet :=
  { c with needsRetest := some [] }

/-- Intents: the build/sync/deploy due-flags and their auto policies.
The mutex is dropped in this functional embedding (it is modelled
separately by the event-trace embedding below); each method is the pure
state transformation its body performs under the lock. -/
structure Intents where
  build : Bool
  sync : Bool
  deploy : Bool
  autoBuild : Bool
  autoSync : Bool
  autoDeploy : Bool
  deriving DecidableEq, Repr

/-- newIntents: only the auto flags are set; the due-flags stay at the
Go zero value false. -/
def newIntents (b s d : Bool) : Intents :=
  { build := false
    sync := false
    deploy := false
    autoBuild := b
    autoSync := s
    autoDeploy := d }

/-- Intents.reset: restore every due-flag to its auto policy. -/
def Intents.reset (i : Intents) : Intents :=
  { i with build := i.autoBuild, sync := i.autoSync, deploy := i.autoDeploy }

/-- Intents.resetBuild: build due-flag falls back to autoBuild. -/
def Intents.resetBuild (i : Intents) : Intents :=
  { i with build := i.autoBuild }

/-- Intents.resetSync: sync due-flag falls back to autoSync. -/
def Intents.resetSync (i : Intents) : Intents :=
  { i with sync := i.autoSync }

/-- Intents.resetDeploy: deploy due-flag falls back to autoDeploy. -/
def Intents.resetDeploy (i : Intents) : Intents :=
  { i with deploy := i.autoDeploy }

/-- Intents.setBuild. -/
def Intents.setBuild (i : Intents) (val : Bool) : Intents :=
  { i with build := val }

/-- Intents.setSync. -/
def Intents.setSync (i : Intents) (val : Bool) : Intents :=
  { i with sync := val }

/-- Intents.setDeploy. -/
def Intents.setDeploy (i : Intents) (val : Bool) : Intents :=
  { i with deploy := val }

/-- Intents.setAutoBuild. -/
def Intents.setAutoBuild (i : Intents) (val : Bool) : Intents :=
  { i with autoBuild := val }

/-- Intents.setAutoSync. -/
def Intents.setAutoSync (i : Intents) (val : Bool) : Intents :=
  { i with autoSync := val }

/-- Intents.setAutoDeploy. -/
def Intents.setAutoDeploy (i : Intents) (val : Bool) : Intents :=
  { i with autoDeploy := val }

/-- Intents.GetIntents: the (build, sync, deploy) snapshot, in that order. -/
def Intents.GetIntents (i : Intents) : Bool × Bool × Bool :=
  (i.build, i.sync, i.deploy)

/-- Intents.IsAnyAutoEnabled. -/
def Intents.IsAnyAutoEnabled (i : Intents) : Bool :=
  i.autoBuild || i.autoSync || i.autoDeploy

/-- Claim C2: resetting a category always restores its due-flag to that
category's auto flag, regardless of what a preceding set call wrote: for
every Intents value and every value v, after setBuild v then resetBuild
the GetIntents snapshot reports build = autoBuild, and symmetrically for
sync and deploy.  In particular autoBuild=true, setBuild false,
resetBuild yields build=true, and autoBuild=false, setBuild true,
resetBuild yields build=false. -/
theorem intents_reset_fidelity (i : Intents) (v : Bool) :
    (((i.setBuild v).resetBuild).GetIntents).1 = i.autoBuild ∧
    (((i.setSync v).resetSync).GetIntents).2.1 = i.autoSync ∧
    (((i.setDeploy v).resetDeploy).GetIntents).2.2 = i.autoDeploy := by
  refine ⟨rfl, rfl, rfl⟩

/-- Claim C10: immediately after newIntents the GetIntents snapshot is
(false, false, false) whatever the auto flags are; the due-flags first
become equal to their auto flags after a reset call. -/
theorem newIntents_not_due_before_reset (b s d : Bool) :
    (newIntents b s d).GetIntents = (false, false, false) ∧
    ((newIntents b s d).reset).GetIntents = (b, s, d) ∧
    (((newIntents b s d).resetBuild).GetIntents).1 = b ∧
    (((newIntents b s d).resetSync).GetIntents).2.1 = s ∧
    (((newIntents b s d).resetDeploy).GetIntents).2.2 = d := by
  refine ⟨rfl, rfl, rfl, rfl, rfl⟩

/-- Claim C6: each ChangeSet reset is category-scoped.  resetBuild leaves
needsResync, resyncTracker, needsRetest, needsRedeploy and needsReload
unchanged; resetSync touches only the resync fields; resetDeploy only
needsRedeploy; resetTest only needsRetest. -/
theorem changeset_reset_isolation (c : ChangeSet) :
    ((c.resetBuild).needsResync = c.needsResync ∧
     (c.resetBuild).resyncTracker = c.resyncTracker ∧
     (c.resetBuild).needsRetest = c.needsRetest ∧
     (c.resetBuild).needsRedeploy = c.needsRedeploy ∧
     (c.resetBuild).needsReload = c.needsReload) ∧
    ((c.resetSync).needsRebuild = c.needsRebuild ∧
     (c.resetSync).rebuildTracker = c.rebuildTracker ∧
     (c.resetSync).needsRetest = c.needsRetest ∧
     (c.resetSync).needsRedeploy = c.needsRedeploy ∧
     (c.resetSync).needsReload = c.needsReload) ∧
    ((c.resetDeploy).needsRebuild = c.needsRebuild ∧
     (c.resetDeploy).rebuildTracker = c.rebuildTracker ∧
     (c.resetDeploy).needsResync = c.needsResync ∧
     (c.resetDeploy).resyncTracker = c.resyncTracker ∧
     (c.resetDeploy).needsRetest = c.needsRetest ∧
     (c.resetDeploy).needsReload = c.needsReload) ∧
    ((c.resetTest).needsRebuild = c.needsRebuild ∧
     (c.resetTest).rebuildTracker = c.rebuildTracker ∧
     (c.resetTest).needsResync = c.needsResync ∧
     (c.resetTest).resyncTracker = c.resyncTracker ∧
     (c.resetTest).needsRedeploy = c.needsRedeploy ∧
     (c.resetTest).needsReload = c.needsReload) := by
  refine ⟨⟨rfl, rfl, rfl, rfl, rfl⟩, ⟨rfl, rfl, rfl, rfl, rfl⟩,
    ⟨rfl, rfl, rfl, rfl, rfl, rfl⟩, ⟨rfl, rfl, rfl, rfl, rfl, rfl⟩⟩

/-! ### Dedup and tracker-consistency machinery (claims C1 and C5) -/

/-- Spec-side reference definition for the dedup contract: keep each
artifact whose image name has not been seen before, first-seen order,
relative to an initial set of already-seen names. -/
def firstWritersFrom (seen : List String) : List Artifact → List Artifact
  | [] => []
  | a :: rest =>
      if a.ImageName ∈ seen then firstWritersFrom seen rest
      else a :: firstWritersFrom (a.ImageName :: seen) rest

/-- Spec-side reference definition: the first artifact per distinct image
name, in the order each name was first seen. -/
def firstWriters (arts : List Artifact) : List Artifact :=
  firstWritersFrom [] arts

theorem assocFind_orEmptyMap {α : Type} (m : Option (List (String × α))) (k : String) :
    assocFind (orEmptyMap m) k = mapLookup m k := by
  cases m <;> rfl

theorem assocFind_assocInsert {α : Type} (l : List (String × α)) (k k' : String) (v : α) :
    assocFind (assocInsert l k v) k' = if k = k' then some v else assocFind l k' := by
  induction l with
  | nil => simp [assocInsert, assocFind]
  | cons hd tl ih =>
    obtain ⟨k₀, v₀⟩ := hd
    by_cases h : k₀ = k
    · subst h
      by_cases h2 : k₀ = k'
      · subst h2; simp [assocInsert, assocFind]
      · simp [assocInsert, assocFind, h2]
    · by_cases h2 : k₀ = k'
      · subst h2
        have hk : ¬ k = k₀ := fun he => h he.symm
        simp [assocInsert, assocFind, h, hk]
      · simp [assocInsert, assocFind, h, h2, ih]

/-- A possibly-nil tracker map has exactly the given key set. -/
def trackerMatches {α : Type} (tr : Option (List (String × α))) (keys : List String) : Prop :=
  ∀ k, (mapLookup tr k).isSome ↔ k ∈ keys

theorem AddRebuild_tracked (c : ChangeSet) (a : Artifact)
    (h : (mapLookup c.rebuildTracker a.ImageName).isSome) :
    c.AddRebuild a = c := by
  simp [ChangeSet.AddRebuild, h]

theorem AddRebuild_untracked (c : ChangeSet) (a : Artifact)
    (h : ¬ (mapLookup c.rebuildTracker a.ImageName).isSome) :
    c.AddRebuild a =
      { c with rebuildTracker :=
                 some (assocInsert (orEmptyMap c.rebuildTracker) a.ImageName a)
               needsRebuild := c.needsRebuild ++ [a] } := by
  simp [ChangeSet.AddRebuild, h]

theorem trackerMatches_insert {α : Type} (m : Option (List (String × α)))
    (seen : List String) (k₀ : String) (v : α)
    (h : trackerMatches m seen) :
    trackerMatches (some (assocInsert (orEmptyMap m) k₀ v)) (k₀ :: seen) := by
  intro k
  have hstep : mapLookup (some (assocInsert (orEmptyMap m) k₀ v)) k
      = if k₀ = k then some v else mapLookup m k := by
    simp [mapLookup, assocFind_assocInsert, assocFind_orEmptyMap]
  rw [hstep]
  by_cases hk : k₀ = k
  · simp [hk]
  · have hk' : ¬ k = k₀ := fun he => hk he.symm
    simp [hk, hk', h k]

theorem foldl_AddRebuild_needsRebuild (arts : List Artifact) :
    ∀ (c : ChangeSet) (seen : List String),
      trackerMatches c.rebuildTracker seen →
      (arts.foldl ChangeSet.AddRebuild c).needsRebuild
        = c.needsRebuild ++ firstWritersFrom seen arts := by
  induction arts with
  | nil => intro c seen _; simp [firstWritersFrom]
  | cons a rest ih =>
    intro c seen h
    by_cases hmem : a.ImageName ∈ seen
    · have htracked : (mapLookup c.rebuildTracker a.ImageName).isSome := (h _).mpr hmem
      rw [List.foldl_cons, AddRebuild_tracked c a htracked, ih c seen h]
      simp [firstWritersFrom, hmem]
    · have huntracked : ¬ (mapLookup c.rebuildTracker a.ImageName).isSome :=
        fun hs => hmem ((h _).mp hs)
      rw [List.foldl_cons, AddRebuild_untracked c a huntracked]
      rw [ih _ (a.ImageName :: seen) (trackerMatches_insert _ seen a.ImageName a h)]
      simp [firstWritersFrom, hmem]

theorem firstWritersFrom_names_nodup (arts : List Artifact) :
    ∀ seen : List String,
      ((firstWritersFrom seen arts).map Artifact.ImageName).Nodup ∧
      ∀ n ∈ (firstWritersFrom seen arts).map Artifact.ImageName, n ∉ seen := by
  induction arts with
  | nil => intro seen; simp [firstWritersFrom]
  | cons a rest ih =>
    intro seen
    by_cases hmem : a.ImageName ∈ seen
    · simpa [firstWritersFrom, hmem] using ih seen
    · obtain ⟨hnd, hfresh⟩ := ih (a.ImageName :: seen)
      constructor
      · simp only [firstWritersFrom, hmem, if_false, List.map_cons, List.nodup_cons]
        refine ⟨fun hx => (hfresh _ hx) (List.mem_cons_self _ _), hnd⟩
      · intro n hn
        simp only [firstWritersFrom, hmem, if_false, List.map_cons, List.mem_cons] at hn
        rcases hn with rfl | hn
        · exact hmem
        · exact fun hseen => (hfresh n hn) (List.mem_cons_of_mem _ hseen)

theorem firstWritersFrom_complete (arts : List Artifact) :
    ∀ seen : List String, ∀ a ∈ arts,
      a.ImageName ∈ seen ∨
      a.ImageName ∈ (firstWritersFrom seen arts).map Artifact.ImageName := by
  induction arts with
  | nil => intro seen a ha; exact absurd ha (List.not_mem_nil a)
  | cons b rest ih =>
    intro seen a ha
    by_cases hmem : b.ImageName ∈ seen
    · rcases List.mem_cons.mp ha with rfl | ha'
      · left; exact hmem
      · simpa [firstWritersFrom, hmem] using ih seen a ha'
    · rcases List.mem_cons.mp ha with rfl | ha'
      · right; simp [firstWritersFrom, hmem]
      · rcases ih (b.ImageName :: seen) a ha' with h | h
        · rcases List.mem_cons.mp h with heq | hseen
          · right; simp [firstWritersFrom, hmem, heq]
          · left; exact hseen
        · right; simp only [firstWritersFrom, hmem, if_false, List.map_cons, List.mem_cons]
          right; exact h

/-- Claim C1: for every sequence of AddRebuild calls starting from the
zero ChangeSet, needsRebuild is exactly the first artifact per distinct
image name in first-seen order (first writer wins), its image names are
duplicate-free, and every image name that was ever added is present. -/
theorem addRebuild_dedup_first_seen (arts : List Artifact) :
    (arts.foldl ChangeSet.AddRebuild ChangeSet.empty).needsRebuild = firstWriters arts ∧
    (((arts.foldl ChangeSet.AddRebuild ChangeSet.empty).needsRebuild).map
        Artifact.ImageName).Nodup ∧
    ∀ a ∈ arts, a.ImageName ∈
      ((arts.foldl ChangeSet.AddRebuild ChangeSet.empty).needsRebuild).map
        Artifact.ImageName := by
  have hbase : trackerMatches (ChangeSet.empty).rebuildTracker ([] : List String) := by
    intro k; simp [ChangeSet.empty, mapLookup]
  have hmain := foldl_AddRebuild_needsRebuild arts ChangeSet.empty [] hbase
  have hmain' : (arts.foldl ChangeSet.AddRebuild ChangeSet.empty).needsRebuild
      = firstWriters arts := by
    simpa [ChangeSet.empty, firstWriters] using hmain
  refine ⟨hmain', ?_, ?_⟩
  · rw [hmain']
    exact (firstWritersFrom_names_nodup arts []).1
  · intro a ha
    rw [hmain']
    rcases firstWritersFrom_complete arts [] a ha with h | h
    · exact absurd h (List.not_mem_nil _)
    · exact h

/-- A run of AddRebuild on a concrete input with one repeated image name:
the repeat neither duplicates nor overwrites the first-inserted artifact. -/
theorem addRebuild_dedup_first_seen_witness :
    (([⟨"img", "w1"⟩, ⟨"other", "w2"⟩, ⟨"img", "w3"⟩] : List Artifact).foldl
        ChangeSet.AddRebuild ChangeSet.empty).needsRebuild
      = [⟨"img", "w1"⟩, ⟨"other", "w2"⟩] :=
  (addRebuild_dedup_first_seen
    [⟨"img", "w1"⟩, ⟨"other", "w2"⟩, ⟨"img", "w3"⟩]).1.trans (by decide)

/-- One ChangeSet operation, for quantifying over arbitrary call sequences. -/
inductive ChangeOp
  | addRebuild (a : Artifact)
  | addRetest (a : Artifact)
  | addResync (s : SyncItem)
  | rstBuild
  | rstSync
  | rstDeploy
  | rstTest

/-- Run one ChangeSet operation. -/
def applyChangeOp (c : ChangeSet) : ChangeOp → ChangeSet
  | .addRebuild a => c.AddRebuild a
  | .addRetest a => c.AddRetest a
  | .addResync s => c.AddResync s
  | .rstBuild => c.resetBuild
  | .rstSync => c.resetSync
  | .rstDeploy => c.resetDeploy
  | .rstTest => c.resetTest

/-- The tracker maps hold exactly the keys of their ordered slices. -/
def ChangeSet.TrackersConsistent (c : ChangeSet) : Prop :=
  trackerMatches c.rebuildTracker (c.needsRebuild.map Artifact.ImageName) ∧
  trackerMatches c.resyncTracker (c.needsResync.map SyncItem.Image)

theorem AddResync_tracked (c : ChangeSet) (s : SyncItem)
    (h : (mapLookup c.resyncTracker s.Image).isSome) :
    c.AddResync s = c := by
  simp [ChangeSet.AddResync, h]

theorem AddResync_untracked (c : ChangeSet) (s : SyncItem)
    (h : ¬ (mapLookup c.resyncTracker s.Image).isSome) :
    c.AddResync s =
      { c with resyncTracker :=
                 some (assocInsert (orEmptyMap c.resyncTracker) s.Image s)
               needsResync := c.needsResync ++ [s] } := by
  simp [ChangeSet.AddResync, h]

theorem trackerMatches_snoc {α : Type} (m : Option (List (String × α)))
    (keys : List String) (k₀ : String) (v : α)
    (h : trackerMatches m keys) :
    trackerMatches (some (assocInsert (orEmptyMap m) k₀ v)) (keys ++ [k₀]) := by
  intro k
  have hcons := trackerMatches_insert m keys k₀ v h k
  simpa [List.mem_cons, List.mem_append, or_comm] using hcons

theorem applyChangeOp_preserves (c : ChangeSet) (op : ChangeOp)
    (h : c.TrackersConsistent) : (applyChangeOp c op).TrackersConsistent := by
  obtain ⟨h1, h2⟩ := h
  cases op with
  | addRebuild a =>
    by_cases hs : (mapLookup c.rebuildTracker a.ImageName).isSome
    · rw [applyChangeOp, AddRebuild_tracked c a hs]; exact ⟨h1, h2⟩
    · rw [applyChangeOp, AddRebuild_untracked c a hs]
      exact ⟨by simpa using trackerMatches_snoc _ _ a.ImageName a h1, h2⟩
  | addRetest a => exact ⟨h1, h2⟩
  | addResync s =>
    by_cases hs : (mapLookup c.resyncTracker s.Image).isSome
    · rw [applyChangeOp, AddResync_tracked c s hs]; exact ⟨h1, h2⟩
    · rw [applyChangeOp, AddResync_untracked c s hs]
      exact ⟨h1, by simpa using trackerMatches_snoc _ _ s.Image s h2⟩
  | rstBuild =>
    refine ⟨fun k => ?_, h2⟩
    simp [applyChangeOp, ChangeSet.resetBuild, mapLookup, assocFind]
  | rstSync =>
    refine ⟨h1, fun k => ?_⟩
    simp [applyChangeOp, ChangeSet.resetSync, mapLookup, assocFind]
  | rstDeploy => exact ⟨h1, h2⟩
  | rstTest => exact ⟨h1, h2⟩

theorem changeSet_empty_consistent : ChangeSet.empty.TrackersConsistent := by
  constructor <;> intro k <;> simp [ChangeSet.empty, mapLookup]

/-- Claim C5: after every sequence of ChangeSet operations starting from
the zero value, the key set of rebuildTracker equals the image-name set
of needsRebuild, and the key set of resyncTracker equals the image-key
set of needsResync. -/
theorem changeset_tracker_key_sets (ops : List ChangeOp) :
    (ops.foldl applyChangeOp ChangeSet.empty).TrackersConsistent := by
  suffices h : ∀ c : ChangeSet, c.TrackersConsistent →
      (ops.foldl applyChangeOp c).TrackersConsistent from
    h ChangeSet.empty changeSet_empty_consistent
  induction ops with
  | nil => intro c hc; simpa using hc
  | cons op rest ih =>
    intro c hc
    exact ih _ (applyChangeOp_preserves c op hc)

/-! ### Build cache, noCache variant (claim C3) -/

/-- graph.Artifact: a built image reference (image name plus tag). -/
structure GraphArtifact where
  ImageName : String
  Tag : String
  deriving DecidableEq, Repr

/-- cache.BuildAndTestFn: the fallback build-and-test callback.  A Go
callback may have side effects, so the embedding threads an explicit
effect state σ through every call; Ctx, Out and Tags stay abstract. -/
def BuildAndTestFn (Ctx Out Tags σ : Type) : Type :=
  Ctx → Out → Tags → List Artifact → σ → σ × Except String (List GraphArtifact)

/-- noCache.Build: delegate the whole batch to buildAndTest and return
its result. -/
def noCacheBuild {Ctx Out Tags σ : Type}
    (buildAndTest : BuildAndTestFn Ctx Out Tags σ)
    (ctx : Ctx) (out : Out) (tags : Tags) (artifacts : List Artifact)
    (s : σ) : σ × Except String (List GraphArtifact) :=
  buildAndTest ctx out tags artifacts s

/-- Instrument a callback so that the effect state additionally records
the artifact batch of every invocation. -/
def recordingFn {Ctx Out Tags σ : Type}
    (f : BuildAndTestFn Ctx Out Tags σ) :
    BuildAndTestFn Ctx Out Tags (σ × List (List Artifact)) :=
  fun ctx out tags arts s =>
    (((f ctx out tags arts s.1).1, s.2 ++ [arts]), (f ctx out tags arts s.1).2)

/-- Claim C3: noCache.Build returns exactly the result of buildAndTestFn
on the unchanged inputs, and (shown through a call-recording
instrumentation) invokes it exactly once, on the full artifact batch. -/
theorem noCache_build_delegates_once {Ctx Out Tags σ : Type}
    (f : BuildAndTestFn Ctx Out Tags σ) (ctx : Ctx) (out : Out)
    (tags : Tags) (artifacts : List Artifact) (s : σ) :
    noCacheBuild f ctx out tags artifacts s = f ctx out tags artifacts s ∧
    (noCacheBuild (recordingFn f) ctx out tags artifacts (s, [])).1.2
      = [artifacts] ∧
    (noCacheBuild (recordingFn f) ctx out tags artifacts (s, [])).2
      = (f ctx out tags artifacts s).2 := by
  refine ⟨rfl, rfl, rfl⟩

/-! ### Lock-discipline traces (claim C4)

Intents methods run their bodies between `lock.Lock()` and
`lock.Unlock()`; the ChangeSet methods have no mutex at all.  Each
method body is embedded a second time as the sequence of atomic events
it performs, so the locking discipline itself becomes checkable. -/

/-- The fields of Intents. -/
inductive IntentsField
  | build
  | sync
  | deploy
  | autoBuild
  | autoSync
  | autoDeploy
  deriving DecidableEq, Repr

/-- The fields of ChangeSet. -/
inductive ChangeSetField
  | needsRebuild
  | rebuildTracker
  | needsResync
  | resyncTracker
  | needsRetest
  | needsRedeploy
  | needsReload
  deriving DecidableEq, Repr

/-- One atomic event of a method body: taking or releasing the mutex, or
reading or writing a field. -/
inductive Ev (F : Type)
  | acquire
  | release
  | readF (f : F)
  | writeF (f : F)
  deriving DecidableEq, Repr

/-- Every field access in the trace happens at positive lock depth, and
no release occurs at depth zero. -/
def guardedFrom {F : Type} : Nat → List (Ev F) → Bool
  | _, [] => true
  | d, Ev.acquire :: r => guardedFrom (d + 1) r
  | 0, Ev.release :: _ => false
  | d + 1, Ev.release :: r => guardedFrom d r
  | 0, Ev.readF _ :: _ => false
  | 0, Ev.writeF _ :: _ => false
  | d + 1, Ev.readF _ :: r => guardedFrom (d + 1) r
  | d + 1, Ev.writeF _ :: r => guardedFrom (d + 1) r

/-- A trace whose every field access is under the lock. -/
def guarded {F : Type} (t : List (Ev F)) : Prop :=
  guardedFrom 0 t = true

instance {F : Type} (t : List (Ev F)) : Decidable (guarded t) :=
  inferInstanceAs (Decidable (guardedFrom 0 t = true))

/-- A trace with no lock operations at all. -/
def lockFree {F : Type} (t : List (Ev F)) : Bool :=
  t.all fun e =>
    match e with
    | Ev.acquire => false
    | Ev.release => false
    | _ => true

namespace IntentsTrace

open Ev IntentsField

/-- Intents.reset. -/
def reset : List (Ev IntentsField) :=
  [acquire, readF autoBuild, writeF build, readF autoSync, writeF sync,
   readF autoDeploy, writeF deploy, release]

/-- Intents.resetBuild. -/
def resetBuild : List (Ev IntentsField) :=
  [acquire, readF autoBuild, writeF build, release]

/-- Intents.resetSync. -/
def resetSync : List (Ev IntentsField) :=
  [acquire, readF autoSync, writeF sync, release]

/-- Intents.resetDeploy. -/
def resetDeploy : List (Ev IntentsField) :=
  [acquire, readF autoDeploy, writeF deploy, release]

/-- Intents.setBuild. -/
def setBuild : List (Ev IntentsField) :=
  [acquire, writeF build, release]

/-- Intents.setSync. -/
def setSync : List (Ev IntentsField) :=
  [acquire, writeF sync, release]

/-- Intents.setDeploy. -/
def setDeploy : List (Ev IntentsField) :=
  [acquire, writeF deploy, release]

/-- Intents.getAutoBuild (the deferred unlock runs after the read). -/
def getAutoBuild : List (Ev IntentsField) :=
  [acquire, readF autoBuild, release]

/-- Intents.getAutoSync. -/
def getAutoSync : List (Ev IntentsField) :=
  [acquire, readF autoSync, release]

/-- Intents.getAutoDeploy. -/
def getAutoDeploy : List (Ev IntentsField) :=
  [acquire, readF autoDeploy, release]

/-- Intents.setAutoBuild. -/
def setAutoBuild : List (Ev IntentsField) :=
  [acquire, writeF autoBuild, release]

/-- Intents.setAutoSync. -/
def setAutoSync : List (Ev IntentsField) :=
  [acquire, writeF autoSync, release]

/-- Intents.setAutoDeploy. -/
def setAutoDeploy : List (Ev IntentsField) :=
  [acquire, writeF autoDeploy, release]

/-- Intents.GetIntents: the three-field snapshot under one lock hold. -/
def getIntents : List (Ev IntentsField) :=
  [acquire, readF build, readF sync, readF deploy, release]

/-- Intents.IsAnyAutoEnabled: `||` short-circuits, so the reads actually
performed depend on the first two flag values. -/
def isAnyAutoEnabled (ab asy : Bool) : List (Ev IntentsField) :=
  [acquire, readF autoBuild] ++
    (if ab then [] else
      readF autoSync :: (if asy then [] else [readF autoDeploy])) ++
    [release]

end IntentsTrace

namespace ChangeSetTrace

open Ev ChangeSetField

/-- ChangeSet.AddRebuild: a tracker lookup; on the untracked path a nil
check (possibly allocating), the map write and the slice append. -/
def addRebuild (alreadyTracked trackerNil : Bool) : List (Ev ChangeSetField) :=
  readF rebuildTracker ::
    (if alreadyTracked then []
     else (readF rebuildTracker ::
             (if trackerNil then [writeF rebuildTracker] else [])) ++
          [writeF rebuildTracker, readF needsRebuild, writeF needsRebuild])

/-- ChangeSet.AddRetest: nil check (possibly allocating) and map write. -/
def addRetest (setNil : Bool) : List (Ev ChangeSetField) :=
  readF needsRetest ::
    (if setNil then [writeF needsRetest] else []) ++ [writeF needsRetest]

/-- ChangeSet.AddResync, symmetric to AddRebuild. -/
def addResync (alreadyTracked trackerNil : Bool) : List (Ev ChangeSetField) :=
  readF resyncTracker ::
    (if alreadyTracked then []
     else (readF resyncTracker ::
             (if trackerNil then [writeF resyncTracker] else [])) ++
          [writeF resyncTracker, readF needsResync, writeF needsResync])

/-- ChangeSet.resetBuild. -/
def resetBuild : List (Ev ChangeSetField) :=
  [writeF rebuildTracker, writeF needsRebuild]

/-- ChangeSet.resetSync. -/
def resetSync : List (Ev ChangeSetField) :=
  [writeF resyncTracker, writeF needsResync]

/-- ChangeSet.resetDeploy. -/
def resetDeploy : List (Ev ChangeSetField) :=
  [writeF needsRedeploy]

/-- ChangeSet.resetTest. -/
def resetTest : List (Ev ChangeSetField) :=
  [writeF needsRetest]

end ChangeSetTrace

/-- Claim C4 counterexample: ChangeSet.AddRebuild on the untracked path
(first artifact into a nil tracker) mutates needsRebuild and the tracker
with no lock held, so it is false that both ChangeSet and Intents guard
every field access with a mutual-exclusion lock. -/
theorem changeset_mutation_unguarded :
    ¬ guarded (ChangeSetTrace.addRebuild false true) := by
  decide

/-- Claim C4 (amended): every Intents method performs all of its field
reads and writes strictly between acquiring and releasing its mutex,
while every ChangeSet method performs its field accesses with no lock
operation whatsoever — ChangeSet itself provides no synchronization. -/
theorem intents_guarded_changeset_lockfree :
    (guarded IntentsTrace.reset ∧
     guarded IntentsTrace.resetBuild ∧
     guarded IntentsTrace.resetSync ∧
     guarded IntentsTrace.resetDeploy ∧
     guarded IntentsTrace.setBuild ∧
     guarded IntentsTrace.setSync ∧
     guarded IntentsTrace.setDeploy ∧
     guarded IntentsTrace.getAutoBuild ∧
     guarded IntentsTrace.getAutoSync ∧
     guarded IntentsTrace.getAutoDeploy ∧
     guarded IntentsTrace.setAutoBuild ∧
     guarded IntentsTrace.setAutoSync ∧
     guarded IntentsTrace.setAutoDeploy ∧
     guarded IntentsTrace.getIntents ∧
     ∀ ab asy : Bool, guarded (IntentsTrace.isAnyAutoEnabled ab asy)) ∧
    ((∀ tracked tnil : Bool,
        lockFree (ChangeSetTrace.addRebuild tracked tnil) = true) ∧
     (∀ snil : Bool, lockFree (ChangeSetTrace.addRetest snil) = true) ∧
     (∀ tracked tnil : Bool,
        lockFree (ChangeSetTrace.addResync tracked tnil) = true) ∧
     lockFree ChangeSetTrace.resetBuild = true ∧
     lockFree ChangeSetTrace.resetSync = true ∧
     lockFree ChangeSetTrace.resetDeploy = true ∧
     lockFree ChangeSetTrace.resetTest = true) := by
  decide

/-! ### Deploy / status-check orchestration (claims C7, C8, C9)

SkaffoldRunner.Deploy itself is not part of the available sources (only
its test, deploy_test.go, is), so the orchestration is modelled from the
spec. -/

/-- config.BoolOrUndefined: the tri-state StatusCheck configuration. -/
inductive StatusCheckCfg
  | undefined
  | enabled
  | disabled
  deriving DecidableEq, Repr

/-- The deployer collaborator, reduced to what Deploy observes of it:
the error it reports (if any) and the namespaces it discovers. -/
structure DeployerStub where
  deployErr : Option String
  discoveredNamespaces : List String
  deriving Repr

/-- The status-check collaborator, reduced to the error its Check
reports (if any). -/
structure CheckerStub where
  checkErr : Option String
  deriving Repr

/-- What the runner configuration contributes to one Deploy call. -/
structure DeployConfig where
  statusCheck : StatusCheckCfg
  namespaces : List String
  deriving Repr

/-- The observable outcome of one Deploy call. -/
structure DeployResult where
  err : Option String
  output : List String
  checkInvoked : Bool
  namespaces : List String
  deriving Repr

/-- Fold namespaces into an accumulator, dropping any already present:
duplicate-free, first occurrence wins, order preserved. -/
def dedupAppend (acc : List String) (xs : List String) : List String :=
  xs.foldl (fun acc n => if n ∈ acc then acc else acc ++ [n]) acc

/-- Modelled from the spec: SkaffoldRunner.Deploy is missing from the
sources (only deploy_test.go is present), so the deploy/status-check
orchestration follows spec section 4.4: the target namespaces are the
duplicate-free union of the configured namespaces followed by the
deployer-discovered ones; the deployer is invoked, and if it reports an
error Deploy fails and the status check is skipped; otherwise the
blocking status check runs — emitting the
"Waiting for deployments to stabilize..." line — unless StatusCheck is
explicitly false, and a stabilization failure becomes the Deploy error.
The render-only short-circuit and the operator namespace override are
outside this modelled fragment. -/
def deployOrchestrate (cfg : DeployConfig) (d : DeployerStub)
    (ck : CheckerStub) : DeployResult :=
  let ns := dedupAppend (dedupAppend [] cfg.namespaces) d.discoveredNamespaces
  match d.deployErr with
  | some e =>
      { err := some e, output := [], checkInvoked := false, namespaces := ns }
  | none =>
      match cfg.statusCheck with
      | StatusCheckCfg.disabled =>
          { err := none, output := [], checkInvoked := false, namespaces := ns }
      | _ =>
          { err := ck.checkErr
            output := ["Waiting for deployments to stabilize..."]
            checkInvoked := true
            namespaces := ns }

/-- Claim C7: with a non-erroring deployer, the output contains the
stabilization line exactly when StatusCheck is unset or explicitly true;
with StatusCheck explicitly false the line is absent. -/
theorem deploy_status_tristate (cfg : DeployConfig) (d : DeployerStub)
    (ck : CheckerStub) (hd : d.deployErr = none) :
    ((cfg.statusCheck = StatusCheckCfg.undefined ∨
        cfg.statusCheck = StatusCheckCfg.enabled) →
      "Waiting for deployments to stabilize..." ∈
        (deployOrchestrate cfg d ck).output) ∧
    (cfg.statusCheck = StatusCheckCfg.disabled →
      "Waiting for deployments to stabilize..." ∉
        (deployOrchestrate cfg d ck).output) := by
  constructor
  · rintro (hs | hs) <;> simp [deployOrchestrate, hd, hs]
  · intro hs
    simp [deployOrchestrate, hd, hs]

/-- A concrete run of the tri-state gate: unset StatusCheck and a clean
deployer produce the stabilization line. -/
theorem deploy_status_tristate_witness :
    "Waiting for deployments to stabilize..." ∈
      (deployOrchestrate ⟨StatusCheckCfg.undefined, ["test"]⟩
        ⟨none, []⟩ ⟨none⟩).output :=
  (deploy_status_tristate ⟨StatusCheckCfg.undefined, ["test"]⟩
    ⟨none, []⟩ ⟨none⟩ rfl).1 (Or.inl rfl)

/-- Claim C8: when the deployer reports an error, Deploy returns that
error and the status checker is never invoked, whatever the StatusCheck
configuration (in particular explicitly true). -/
theorem deploy_error_skips_check (cfg : DeployConfig) (d : DeployerStub)
    (ck : CheckerStub) (e : String) (hd : d.deployErr = some e) :
    (deployOrchestrate cfg d ck).err = some e ∧
    (deployOrchestrate cfg d ck).checkInvoked = false := by
  constructor <;> simp [deployOrchestrate, hd]

/-- A concrete erroring deploy with StatusCheck explicitly true: the
error is returned and the check is skipped. -/
theorem deploy_error_skips_check_witness :
    (deployOrchestrate ⟨StatusCheckCfg.enabled, ["test"]⟩
        ⟨some "deploy error", []⟩ ⟨none⟩).err = some "deploy error" ∧
    (deployOrchestrate ⟨StatusCheckCfg.enabled, ["test"]⟩
        ⟨some "deploy error", []⟩ ⟨none⟩).checkInvoked = false :=
  deploy_error_skips_check ⟨StatusCheckCfg.enabled, ["test"]⟩
    ⟨some "deploy error", []⟩ ⟨none⟩ "deploy error" rfl

theorem dedupAppend_nil (acc : List String) : dedupAppend acc [] = acc := rfl

theorem dedupAppend_cons (acc : List String) (x : String) (xs : List String) :
    dedupAppend acc (x :: xs)
      = dedupAppend (if x ∈ acc then acc else acc ++ [x]) xs := rfl

theorem mem_dedupAppend (xs : List String) :
    ∀ (acc : List String) (n : String),
      n ∈ dedupAppend acc xs ↔ n ∈ acc ∨ n ∈ xs := by
  induction xs with
  | nil => intro acc n; simp [dedupAppend_nil]
  | cons x xs ih =>
    intro acc n
    rw [dedupAppend_cons, ih]
    by_cases hx : x ∈ acc
    · simp only [if_pos hx, List.mem_cons]
      constructor
      · rintro (h | h)
        · exact Or.inl h
        · exact Or.inr (Or.inr h)
      · rintro (h | rfl | h)
        · exact Or.inl h
        · exact Or.inl hx
        · exact Or.inr h
    · simp only [if_neg hx, List.mem_append, List.mem_singleton, List.mem_cons]
      tauto

theorem nodup_dedupAppend (xs : List String) :
    ∀ acc : List String, acc.Nodup → (dedupAppend acc xs).Nodup := by
  induction xs with
  | nil => intro acc h; simpa [dedupAppend_nil] using h
  | cons x xs ih =>
    intro acc h
    rw [dedupAppend_cons]
    by_cases hx : x ∈ acc
    · rw [if_pos hx]; exact ih acc h
    · rw [if_neg hx]
      refine ih _ ?_
      simp [List.nodup_append, h, hx]

theorem dedupAppend_extends (xs : List String) :
    ∀ acc : List String, ∃ rest : List String,
      dedupAppend acc xs = acc ++ rest ∧ ∀ n ∈ rest, n ∈ xs := by
  induction xs with
  | nil => intro acc; exact ⟨[], by simp [dedupAppend_nil]⟩
  | cons x xs ih =>
    intro acc
    rw [dedupAppend_cons]
    by_cases hx : x ∈ acc
    · rw [if_pos hx]
      obtain ⟨rest, h1, h2⟩ := ih acc
      exact ⟨rest, h1, fun n hn => List.mem_cons_of_mem _ (h2 n hn)⟩
    · rw [if_neg hx]
      obtain ⟨rest, h1, h2⟩ := ih (acc ++ [x])
      refine ⟨x :: rest, ?_, ?_⟩
      · rw [h1]; simp
      · intro n hn
        rcases List.mem_cons.mp hn with rfl | hn'
        · exact List.mem_cons_self _ _
        · exact List.mem_cons_of_mem _ (h2 n hn')

theorem deployOrchestrate_namespaces (cfg : DeployConfig) (d : DeployerStub)
    (ck : CheckerStub) :
    (deployOrchestrate cfg d ck).namespaces
      = dedupAppend (dedupAppend [] cfg.namespaces) d.discoveredNamespaces := by
  cases hd : d.deployErr <;> cases hs : cfg.statusCheck <;>
    simp [deployOrchestrate, hd, hs]

/-- Claim C9: the namespaces a Deploy call yields are duplicate-free,
are exactly the union of the configured and the deployer-discovered
namespaces, and keep the (deduplicated) configured namespaces first with
discovered-only ones after; on the claim's concrete example, configured
["test"] with discovered ["test-ns", "test-ns-1"] yields
["test", "test-ns", "test-ns-1"]. -/
theorem deploy_namespace_aggregation (cfg : DeployConfig) (d : DeployerStub)
    (ck : CheckerStub) :
    ((deployOrchestrate cfg d ck).namespaces).Nodup ∧
    (∀ n, n ∈ (deployOrchestrate cfg d ck).namespaces ↔
      n ∈ cfg.namespaces ∨ n ∈ d.discoveredNamespaces) ∧
    (∃ rest, (deployOrchestrate cfg d ck).namespaces
        = dedupAppend [] cfg.namespaces ++ rest ∧
      ∀ n ∈ rest, n ∈ d.discoveredNamespaces) ∧
    (deployOrchestrate ⟨StatusCheckCfg.undefined, ["test"]⟩
        ⟨none, ["test-ns", "test-ns-1"]⟩ ⟨none⟩).namespaces
      = ["test", "test-ns", "test-ns-1"] := by
  rw [deployOrchestrate_namespaces]
  refine ⟨?_, ?_, ?_, by decide⟩
  · exact nodup_dedupAppend _ _ (nodup_dedupAppend _ _ List.nodup_nil)
  · intro n
    rw [mem_dedupAppend, mem_dedupAppend]
    simp
  · exact dedupAppend_extends d.discoveredNamespaces (dedupAppend [] cfg.namespaces)

end Skaffold
